import Mathlib

/-!
Verification of the `ub-data` harvesting scripts.

The development shallowly embeds the two source files:

* `src/fetch_publications.py` — OAI-PMH token-chained harvester
  (`extract_records`, `fetch_records`, `harvest_records_async`);
* `src/fetch_faculties.py` — paginated HTML harvester
  (`extract_publication_data`, `get_total_pages`, `fetch_and_parse_page`,
  and the `__main__` driver).

Network I/O is modelled by explicit environments: a function from attempt
index to the outcome of that HTTP request, or a chain of batch responses
indexed by position.  Pure Python logic is translated function by function.
-/

set_option autoImplicit false

namespace FetchPublications

/-! ### Extractor (`extract_records`, src/fetch_publications.py lines 25-62)

`extract_records` parses an XML payload with lxml inside a `try` block and
returns `(records, token)`; any exception is caught and `([], None)` is
returned.  The payload is modelled by its parse result: either a parsed
OAI-PMH document or a parse error (`etree.fromstring` raising). -/

/-- A value in a Python record dict: `element.text` (possibly `None`), or a
list of texts once a Dublin-Core tag repeats. -/
inductive DcValue where
  | single (v : Option String)
  | multi (vs : List (Option String))
deriving Repr, DecidableEq

/-- The Python `record_data` dict: an insertion-ordered association list. -/
abbrev OaiRecord := List (String × DcValue)

/-- One `<record>` node, as seen by the xpath queries of the source:
the `text()` results for identifier and datestamp, and the
`(localname, text)` pairs of the `oai_dc:dc` children. -/
structure OaiRecordNode where
  identifierTexts : List String
  datestampTexts : List String
  dcElements : List (String × Option String)
deriving Repr, DecidableEq

/-- A parsed OAI-PMH document: its `<record>` nodes and the `text()` results
of `//oai:resumptionToken`. -/
structure OaiDoc where
  recordNodes : List OaiRecordNode
  resumptionTokenTexts : List String
deriving Repr, DecidableEq

/-- A raw payload, modelled by its parse result: `.ok doc` when
`etree.fromstring` succeeds, `.error e` when parsing raises. -/
abbrev XmlPayload := Except String OaiDoc

/-- Update the value stored at `tag` in the dict, keeping insertion order
(Python dict assignment to an existing key). -/
def setVal (rd : OaiRecord) (tag : String) (v : DcValue) : OaiRecord :=
  match rd with
  | [] => []
  | (t, w) :: rest => if t = tag then (t, v) :: rest else (t, w) :: setVal rest tag v

/-- Lines 43-51: fold one Dublin-Core element into `record_data`, turning a
repeated tag into a list. -/
def addDcElement (rd : OaiRecord) (tag : String) (text : Option String) : OaiRecord :=
  match List.lookup tag rd with
  | some (DcValue.multi vs) => setVal rd tag (DcValue.multi (vs ++ [text]))
  | some (DcValue.single v) => setVal rd tag (DcValue.multi [v, text])
  | none => rd ++ [(tag, DcValue.single text)]

/-- Lines 32-53: build the `record_data` dict for one `<record>` node. -/
def buildRecord (node : OaiRecordNode) : OaiRecord :=
  let rd : OaiRecord := []
  let rd := match node.identifierTexts with
    | [] => rd
    | t :: _ => rd ++ [("identifier", DcValue.single (some t))]
  let rd := match node.datestampTexts with
    | [] => rd
    | t :: _ => rd ++ [("datestamp", DcValue.single (some t))]
  node.dcElements.foldl (fun acc e => addDcElement acc e.1 e.2) rd

/-- Lines 56-57: the continuation is the first `resumptionToken` text when
its stripped form is non-empty, else `None`. -/
def tokenOf (doc : OaiDoc) : Option String :=
  match doc.resumptionTokenTexts with
  | [] => none
  | t :: _ => if t.trim.isEmpty then none else some t

/-- Lines 25-62: `extract_records`.  The whole body is wrapped in
`try/except`; on a parse error the function returns `([], None)`. -/
def extract_records (payload : XmlPayload) : List OaiRecord × Option String :=
  match payload with
  | .error _ => ([], none)
  | .ok doc => (doc.recordNodes.map buildRecord, tokenOf doc)

/-! ### Retry policy (`fetch_records`, src/fetch_publications.py lines 64-90)

One invocation of `session.get` is modelled by the outcome the network
produces for that attempt.  `fetch_records` loops `for i in range(retry_count)`;
the model additionally records the sleeps performed and the number of
requests issued, which are the observables of the claims. -/

/-- Outcome of one `session.get` call inside `fetch_records`. -/
inductive FetchOutcome where
  /-- 2xx: `response.text` is returned. -/
  | success (payload : String)
  /-- 503: handled before `raise_for_status`, sleeps and retries. -/
  | busy
  /-- `asyncio.TimeoutError`: sleeps and retries. -/
  | timeout
  /-- non-2xx other than 503: `raise_for_status` raises, landing in the
  generic `except Exception` handler. -/
  | httpError (status : Nat)
  /-- any other exception (connection error, ...): generic handler. -/
  | netError
deriving Repr, DecidableEq

/-- Result of `fetch_records` plus the observable retry behaviour. -/
structure FetchResult where
  payload : Option String
  sleeps : List Nat
  attempts : Nat
deriving Repr, DecidableEq

/-- Lines 70, 78, 83: `min(2 ** i, 30)`, the exponential backoff capped at
30 seconds. -/
def backoff (i : Nat) : Nat := min (2 ^ i) 30

/-- The `for i in range(retry_count)` loop of lines 66-88.  `env i` is the
outcome of the request made on attempt `i` (0-based). -/
def fetchLoop (env : Nat → FetchOutcome) (retry_count : Nat) (i : Nat)
    (sleeps : List Nat) (attempts : Nat) : FetchResult :=
  if _h : i < retry_count then
    match env i with
    | .success p => ⟨some p, sleeps, attempts + 1⟩
    | .busy => fetchLoop env retry_count (i + 1) (sleeps ++ [backoff i]) (attempts + 1)
    | .timeout => fetchLoop env retry_count (i + 1) (sleeps ++ [backoff i]) (attempts + 1)
    | .httpError _ =>
      if i < retry_count - 1 then
        fetchLoop env retry_count (i + 1) (sleeps ++ [backoff i]) (attempts + 1)
      else ⟨none, sleeps, attempts + 1⟩
    | .netError =>
      if i < retry_count - 1 then
        fetchLoop env retry_count (i + 1) (sleeps ++ [backoff i]) (attempts + 1)
      else ⟨none, sleeps, attempts + 1⟩
  else ⟨none, sleeps, attempts⟩
termination_by retry_count - i

/-- Lines 64-90: `fetch_records` with its retry mechanism.  The source's
default for `retry_count` is 3. -/
def fetch_records (env : Nat → FetchOutcome) (retry_count : Nat) : FetchResult :=
  fetchLoop env retry_count 0 [] 0

/-- Spec §4.3 transient errors: `Timeout`, `ServerBusy`, `NetworkError`. -/
def isTransient (o : FetchOutcome) : Prop :=
  o = FetchOutcome.busy ∨ o = FetchOutcome.timeout ∨ o = FetchOutcome.netError

/-! ### Harvest engine (`harvest_records_async`, src/fetch_publications.py lines 92-163)

A chained-mode run is driven by a sequence of batch responses.  Token `i`
(for `i ≥ 1`) denotes the `i`-th resumption token of the chain; index `0` is
the initial `ListRecords` request.  The response to work unit `i` is
`outcome chain i`: `none` when `fetch_records` gave up (returned `None`)
and `some b` when it returned a payload that `extract_records` turned into
`b.records` plus, when `b.hasNext`, the next token `i+1`.  Note that
`extract_records` returns at most one token per payload, so `Bool` is
exact.  Record contents are irrelevant to the engine and modelled as opaque
naturals. -/

/-- An extracted record, opaque to the engine. -/
abbrev Rec := Nat

/-- What `extract_records` yields for one successfully fetched batch. -/
structure BatchData where
  records : List Rec
  hasNext : Bool
deriving Repr, DecidableEq

/-- The environment of a chained run: entry `i` is the behaviour of work
unit `i`; `none` means `fetch_records` exhausted its retries. -/
abbrev Chain := List (Option BatchData)

/-- The response to dispatching work unit `i`; a token beyond the chain
(e.g. issued by the last listed batch) fails like an exhausted fetch. -/
def outcome (chain : Chain) (i : Nat) : Option BatchData :=
  match chain.get? i with
  | none => none
  | some o => o

/-- State of the `while resumption_tokens:` loop (lines 116-150).
`pending` is `resumption_tokens`, `tasks` the in-flight task list,
`allRecords` the accumulator.  `dispatched` and `yielded` are ghost history
fields recording, respectively, every work unit for which a task was
created and every token appended to `resumption_tokens`; they do not
influence control flow. -/
structure HState where
  pending : List Nat
  tasks : List Nat
  allRecords : List Rec
  dispatched : List Nat
  yielded : List Nat
deriving Repr, DecidableEq

/-- Result of the dispatch phase. -/
structure FillRes where
  pending : List Nat
  tasks : List Nat
  dispatched : List Nat
deriving Repr, DecidableEq

/-- Lines 124-130: `while len(tasks) < max_concurrent and resumption_tokens:`
pop the head token and start its fetch task. -/
def fill (mc : Nat) : List Nat → List Nat → List Nat → FillRes
  | [], tasks, disp => ⟨[], tasks, disp⟩
  | t :: rest, tasks, disp =>
    if tasks.length < mc then fill mc rest (tasks ++ [t]) (disp ++ [t])
    else ⟨t :: rest, tasks, disp⟩

/-- Result of processing the completed tasks. -/
structure ProcRes where
  allRecords : List Rec
  pending : List Nat
  yielded : List Nat
deriving Repr, DecidableEq

/-- Lines 136-147: for each completed task, if it returned a payload merge
its records and append the extracted token (if any) to
`resumption_tokens`; a task whose fetch failed contributes nothing. -/
def processDone (chain : Chain) : List Nat → List Rec → List Nat → List Nat → ProcRes
  | [], acc, pending, yielded => ⟨acc, pending, yielded⟩
  | t :: rest, acc, pending, yielded =>
    match outcome chain t with
    | none => processDone chain rest acc pending yielded
    | some b =>
      processDone chain rest (acc ++ b.records)
        (if b.hasNext then pending ++ [t + 1] else pending)
        (if b.hasNext then yielded ++ [t + 1] else yielded)

/-- One iteration of the `while resumption_tokens:` loop: fill the task
queue up to `max_concurrent`, then (`if tasks:`) wait for completions and
process them.  `asyncio.wait(..., FIRST_COMPLETED)` returns a non-empty
subset of the in-flight tasks; in every state reachable from an initial
state at most one task is in flight (the frontier invariant proved below),
so the completed set is the whole task list, which is how it is modelled. -/
def oneIter (chain : Chain) (mc : Nat) (st : HState) : HState :=
  let fo := fill mc st.pending st.tasks st.dispatched
  if fo.tasks.isEmpty then
    { st with pending := fo.pending, tasks := fo.tasks, dispatched := fo.dispatched }
  else
    let po := processDone chain fo.tasks st.allRecords fo.pending st.yielded
    { pending := po.pending, tasks := [], allRecords := po.allRecords
      dispatched := fo.dispatched, yielded := po.yielded }

/-- The `while resumption_tokens:` loop.  `fuel` bounds the number of
iterations; the Python loop has no such bound and spins forever on an
endless chain (or when `max_concurrent = 0`), which the model renders as
`none`. -/
def harvestLoop (chain : Chain) (mc : Nat) : Nat → HState → Option HState
  | 0, _ => none
  | fuel + 1, st =>
    if st.pending.isEmpty then some st
    else harvestLoop chain mc fuel (oneIter chain mc st)

/-- Lines 101-119: state after the initial batch has been fetched and
extracted (work unit `0`); its token, when present, seeds
`resumption_tokens`. -/
def initState (b0 : BatchData) : HState :=
  { pending := if b0.hasNext then [1] else []
    tasks := []
    allRecords := b0.records
    dispatched := [0]
    yielded := if b0.hasNext then [1] else [] }

/-- Lines 152-158: `await asyncio.gather(*tasks)` on the tasks still in
flight when the loop exited; their records are merged but the token of each
such response is discarded (`batch_records, _ = extract_records(...)`). -/
def finalGather (chain : Chain) (st : HState) : HState :=
  { st with
      tasks := []
      allRecords := st.allRecords ++
        (st.tasks.map (fun t =>
          match outcome chain t with
          | some b => b.records
          | none => [])).flatten }

/-- Lines 92-163: `harvest_records_async`.  If the initial fetch fails the
run returns `[]` immediately; otherwise the loop runs to completion (given
enough fuel) and the remaining tasks are gathered. -/
def harvest_records_async (chain : Chain) (mc : Nat) (fuel : Nat) : Option HState :=
  match outcome chain 0 with
  | none => some { pending := [], tasks := [], allRecords := [], dispatched := [0], yielded := [] }
  | some b0 =>
    match harvestLoop chain mc fuel (initState b0) with
    | none => none
    | some st => some (finalGather chain st)

/-! ### Derived notions used by the statements -/

/-- The token-bookkeeping invariant of the loop: every token ever appended
to `resumption_tokens` has either been dispatched already or is still
pending. -/
def TokensInv (st : HState) : Prop :=
  ∀ x ∈ st.yielded, x ∈ st.dispatched ∨ x ∈ st.pending

/-- Observables of draining the chain from one pending token. -/
structure DrainRes where
  recs : List Rec
  disp : List Nat
  yld : List Nat
deriving Repr, DecidableEq

/-- The sequential behaviour of the loop started from the single pending
token `i`: the records accumulated, the work units dispatched and the
tokens yielded until the chain stops — at a batch with no further token,
or at a fetch that exhausted its retries. -/
def drain (chain : Chain) (i : Nat) : DrainRes :=
  if _h : i < chain.length then
    match outcome chain i with
    | none => ⟨[], [i], []⟩
    | some b =>
      if b.hasNext then
        let r := drain chain (i + 1)
        ⟨b.records ++ r.recs, i :: r.disp, (i + 1) :: r.yld⟩
      else ⟨b.records, [i], []⟩
  else ⟨[], [i], []⟩
termination_by chain.length - i
decreasing_by omega

end FetchPublications

namespace FetchFaculties

/-! ### Extractor (`extract_publication_data`, src/fetch_faculties.py lines 47-171)

BeautifulSoup's `html.parser` is lenient and never raises on malformed
input; a payload is therefore modelled by what the CSS selectors find: the
list of `div.ubl-resultrow.islandora-solr-search-result` containers, each
carrying the values its sub-selectors locate.  Malformed or empty pages
yield no containers. -/

/-- One search-result container, as seen by the selectors of the source.
Each field is what the corresponding query yields (`none` = not found):
* `idVal` — the digits captured from the `/handle/1887/<id>` link;
* `titleVal` — stripped text of the title link;
* `authorYearVal` — when the author `dd` exists: the author text after
  removing the trailing year, and the (possibly empty) year-span text;
* `abstractToggleVal` — `some inner` when the toggle-wrapper span chain is
  found, where `inner` is the assembled full-abstract text if the inner
  span is located;
* `abstractDirectVal` — the direct `dd.mods-abstract-ms` text when present
  without an `.ubl-embargo` child. -/
structure ResultRow where
  idVal : Option String
  titleVal : Option String
  authorYearVal : Option (String × String)
  resourceTypeVal : Option String
  availabilityVal : Option String
  abstractToggleVal : Option (Option String)
  abstractDirectVal : Option String
deriving Repr, DecidableEq

/-- The item dict built per result row; the source assigns every key. -/
structure PubItem where
  id : Option String
  title : Option String
  author : Option String
  year : Option String
  resource_type : Option String
  availability : Option String
  abstract : Option String
deriving Repr, DecidableEq

/-- Lines 70-169: build one item dict from one result container.  An empty
author or year string becomes `None` (lines 108-109); the abstract falls
back to the direct `dd` text when the toggle-wrapper chain is absent or
incomplete (lines 151-167). -/
def rowItem (r : ResultRow) : PubItem :=
  { id := r.idVal
    title := r.titleVal
    author := match r.authorYearVal with
      | none => none
      | some (a, _) => if a.isEmpty then none else some a
    year := match r.authorYearVal with
      | none => none
      | some (_, y) => if y.isEmpty then none else some y
    resource_type := r.resourceTypeVal
    availability := r.availabilityVal
    abstract := match r.abstractToggleVal with
      | some (some txt) => some txt
      | some none => r.abstractDirectVal
      | none => r.abstractDirectVal }

/-- Lines 47-171: `extract_publication_data`.  With no result containers it
returns `[]` (line 68); otherwise one item per container. -/
def extract_publication_data (rows : List ResultRow) : List PubItem :=
  rows.map rowItem

/-! ### Scope discovery (`get_total_pages`, src/fetch_faculties.py lines 174-221) -/

/-- Outcome of the page-1 probe:
* `fetchFail` — `requests.get`/`raise_for_status` raised a
  `RequestException` (line 216), after the transport's retries;
* `parseFail` — some other exception while parsing (line 219);
* `okPage pager` — parsed page, with the page numbers found in
  `ul.pager li a` links when a pager element exists. -/
inductive ProbeResult where
  | fetchFail
  | parseFail
  | okPage (pager : Option (List Nat))
deriving Repr, DecidableEq

/-- Lines 174-221: `get_total_pages`.  `0` signals failure; no pager or no
numeric page links means a single page; otherwise the maximum linked page
number. -/
def get_total_pages : ProbeResult → Nat
  | .fetchFail => 0
  | .parseFail => 0
  | .okPage none => 1
  | .okPage (some nums) => if nums.isEmpty then 1 else nums.foldr max 0

/-! ### Per-page fetch (`fetch_and_parse_page`, lines 224-250) and the
`__main__` driver (lines 254-338) -/

/-- Outcome of the `requests.get` for one page. -/
inductive PageResp where
  /-- 2xx: the body parsed into its result containers. -/
  | ok (rows : List ResultRow)
  /-- `requests.exceptions.Timeout` (line 242). -/
  | timeout
  /-- other `RequestException`, including `raise_for_status` (line 245). -/
  | reqError
  /-- any other exception (line 248). -/
  | exc
deriving Repr, DecidableEq

/-- Lines 224-250: `fetch_and_parse_page`; every failure is caught at the
unit boundary and becomes an empty record list. -/
def fetch_and_parse_page (r : PageResp) : List PubItem :=
  match r with
  | .ok rows => extract_publication_data rows
  | .timeout => []
  | .reqError => []
  | .exc => []

/-- Observable final state of the `__main__` driver:
`aborted` is the "Could not determine total pages" early exit (line 263);
`dispatchedPages` the pages submitted to the executor; `records` the
`all_publications_data` accumulator; `completedPages` the progress
counter. -/
structure FacRun where
  aborted : Bool
  dispatchedPages : List Nat
  records : List PubItem
  completedPages : Nat
deriving Repr, DecidableEq

/-- Lines 254-338: the driver.  `env p` is the network outcome for page
`p`.  With `total_pages ≤ 0` the run aborts before dispatching anything;
otherwise pages `1..total_pages` are all submitted and their results merged
as the futures complete (completion order does not affect the observables
below; the model processes them in page order).  `fetch_and_parse_page`
never raises, so every future increments `completed_pages`. -/
def facMain (probe : ProbeResult) (env : Nat → PageResp) : FacRun :=
  let total_pages := get_total_pages probe
  if total_pages ≤ 0 then
    { aborted := true, dispatchedPages := [], records := [], completedPages := 0 }
  else
    let pages := List.range' 1 total_pages
    { aborted := false
      dispatchedPages := pages
      records := (pages.map (fun p => fetch_and_parse_page (env p))).flatten
      completedPages := pages.length }

/-- Whether the fetch of one page succeeded (took the `page_data` branch of
`fetch_and_parse_page` rather than one of its except branches). -/
def pageSucceeded : PageResp → Bool
  | .ok _ => true
  | .timeout => false
  | .reqError => false
  | .exc => false

/-- Number of pages in `1..total` whose fetch succeeded. -/
def succeededPages (env : Nat → PageResp) (total : Nat) : Nat :=
  ((List.range' 1 total).filter (fun p => pageSucceeded (env p))).length

/-- Number of pages in `1..total` whose fetch failed. -/
def failedPages (env : Nat → PageResp) (total : Nat) : Nat :=
  ((List.range' 1 total).filter (fun p => !pageSucceeded (env p))).length

/-! ### Progress/ETA (lines 308-329) -/

/-- `MAX_WORKERS` (line 14). -/
def MAX_WORKERS : Nat := 32

/-- Lines 318-325: the divisor of the ETA computation,
`min(MAX_WORKERS, pages_remaining if pages_remaining > 0 else 1)`. -/
def etaDivisor (maxWorkers pagesRemaining : Nat) : Nat :=
  min maxWorkers (if pagesRemaining > 0 then pagesRemaining else 1)

/-- Lines 318-325: `eta_seconds = avg_time_per_page * pages_remaining /
min(...)`.  Real arithmetic is modelled over `ℚ`. -/
def etaSeconds (avgTimePerPage : ℚ) (maxWorkers pagesRemaining : Nat) : ℚ :=
  avgTimePerPage * (pagesRemaining : ℚ) / (etaDivisor maxWorkers pagesRemaining : ℚ)

end FetchFaculties

namespace FetchPublications

/-! ### Lemmas about the dispatch phase (`fill`) -/

/-- The dispatch loop never grows the task list beyond the larger of the
ceiling and the task count it started from. -/
theorem fill_tasks_length_le (mc : Nat) (p : List Nat) : ∀ t d : List Nat,
    ((fill mc p t d).tasks).length ≤ max mc t.length := by
  induction p with
  | nil => intro t d; simp [fill]
  | cons a rest ih =>
    intro t d
    by_cases h : t.length < mc
    · have h2 := ih (t ++ [a]) (d ++ [a])
      simp only [fill, if_pos h]
      simp only [List.length_append, List.length_cons, List.length_nil] at h2
      omega
    · simp [fill, if_neg h]

/-- The dispatch loop only moves tokens from `pending` to `tasks`: the
total count is preserved. -/
theorem fill_sum (mc : Nat) (p : List Nat) : ∀ t d : List Nat,
    (fill mc p t d).pending.length + (fill mc p t d).tasks.length = p.length + t.length := by
  induction p with
  | nil => intro t d; simp [fill]
  | cons a rest ih =>
    intro t d
    by_cases h : t.length < mc
    · have h2 := ih (t ++ [a]) (d ++ [a])
      simp only [fill, if_pos h]
      simp only [List.length_append, List.length_cons, List.length_nil] at h2
      simp only [List.length_cons]
      omega
    · simp [fill, if_neg h]

/-- Everything already dispatched stays dispatched. -/
theorem fill_disp_sub (mc : Nat) (p : List Nat) : ∀ t d : List Nat, ∀ x ∈ d,
    x ∈ (fill mc p t d).dispatched := by
  induction p with
  | nil => intro t d x hx; simpa [fill] using hx
  | cons a rest ih =>
    intro t d x hx
    by_cases h : t.length < mc
    · simp only [fill, if_pos h]
      exact ih _ _ x (by simp [hx])
    · simpa [fill, if_neg h] using hx

/-- Every pending token either stays pending or gets dispatched. -/
theorem fill_pending_cases (mc : Nat) (p : List Nat) : ∀ t d : List Nat, ∀ x ∈ p,
    x ∈ (fill mc p t d).pending ∨ x ∈ (fill mc p t d).dispatched := by
  induction p with
  | nil => intro t d x hx; simp at hx
  | cons a rest ih =>
    intro t d x hx
    by_cases h : t.length < mc
    · simp only [fill, if_pos h]
      rcases List.mem_cons.mp hx with rfl | hx'
      · exact Or.inr (fill_disp_sub mc rest _ _ x (by simp))
      · exact ih _ _ x hx'
    · left; simpa [fill, if_neg h] using hx

/-! ### Lemmas about processing completed tasks (`processDone`) -/

/-- Processing `done` tasks appends at most one new token per task. -/
theorem processDone_pending_length (chain : Chain) (done : List Nat) : ∀ acc p y,
    ((processDone chain done acc p y).pending).length ≤ p.length + done.length := by
  induction done with
  | nil => intro acc p y; simp [processDone]
  | cons t rest ih =>
    intro acc p y
    simp only [processDone]
    cases h : outcome chain t with
    | none =>
      have := ih acc p y
      simp only [List.length_cons]
      omega
    | some b =>
      have := ih (acc ++ b.records)
        (if b.hasNext then p ++ [t + 1] else p)
        (if b.hasNext then y ++ [t + 1] else y)
      cases hb : b.hasNext <;> simp [hb] at this ⊢ <;> omega

/-- Processing completed tasks preserves the token-bookkeeping invariant:
a newly yielded token is appended to `pending` in the same step. -/
theorem processDone_yielded_inv (chain : Chain) (D : List Nat) (done : List Nat) :
    ∀ acc p y, (∀ x ∈ y, x ∈ D ∨ x ∈ p) →
    ∀ x ∈ (processDone chain done acc p y).yielded,
      x ∈ D ∨ x ∈ (processDone chain done acc p y).pending := by
  induction done with
  | nil =>
    intro acc p y hy x hx
    simp only [processDone] at hx ⊢
    exact hy x hx
  | cons t rest ih =>
    intro acc p y hy
    simp only [processDone]
    cases h : outcome chain t with
    | none => exact ih acc p y hy
    | some b =>
      apply ih
      intro x hx
      by_cases hb : b.hasNext
      · rw [if_pos hb] at hx ⊢
        rcases List.mem_append.mp hx with hx' | hx'
        · rcases hy x hx' with hD | hp
          · exact Or.inl hD
          · exact Or.inr (List.mem_append_left _ hp)
        · exact Or.inr (List.mem_append_right _ hx')
      · rw [if_neg hb] at hx ⊢
        exact hy x hx

/-! ### Lemmas about one loop iteration (`oneIter`) -/

/-- At every loop boundary the in-flight task list is empty: an iteration
either dispatched nothing, or waited for and processed its tasks. -/
theorem oneIter_tasks_nil (chain : Chain) (mc : Nat) (st : HState) :
    (oneIter chain mc st).tasks = [] := by
  unfold oneIter
  by_cases h : (fill mc st.pending st.tasks st.dispatched).tasks.isEmpty
  · simp only [if_pos h]
    exact List.isEmpty_iff.mp h
  · simp only [if_neg h]

/-- One iteration preserves the token-bookkeeping invariant. -/
theorem oneIter_inv (chain : Chain) (mc : Nat) (st : HState) (h : TokensInv st) :
    TokensInv (oneIter chain mc st) := by
  have hfill : ∀ x ∈ st.yielded,
      x ∈ (fill mc st.pending st.tasks st.dispatched).dispatched ∨
      x ∈ (fill mc st.pending st.tasks st.dispatched).pending := by
    intro x hx
    rcases h x hx with hD | hp
    · exact Or.inl (fill_disp_sub mc st.pending st.tasks st.dispatched x hD)
    · exact (fill_pending_cases mc st.pending st.tasks st.dispatched x hp).symm
  unfold oneIter
  by_cases he : (fill mc st.pending st.tasks st.dispatched).tasks.isEmpty
  · simp only [if_pos he]
    intro x hx
    exact hfill x hx
  · simp only [if_neg he]
    intro x hx
    exact processDone_yielded_inv chain
      (fill mc st.pending st.tasks st.dispatched).dispatched
      (fill mc st.pending st.tasks st.dispatched).tasks
      st.allRecords (fill mc st.pending st.tasks st.dispatched).pending st.yielded
      (fun z hz => (hfill z hz).imp_left id) x hx

/-! ### Loop-level lemmas -/

/-- If the `while resumption_tokens:` loop terminates, it terminates with
an empty pending queue, an empty in-flight list, and the token-bookkeeping
invariant intact. -/
theorem harvestLoop_spec (chain : Chain) (mc : Nat) : ∀ (fuel : Nat) (st st' : HState),
    TokensInv st → st.tasks = [] → harvestLoop chain mc fuel st = some st' →
    st'.pending = [] ∧ st'.tasks = [] ∧ TokensInv st' := by
  intro fuel
  induction fuel with
  | zero => intro st st' _ _ h; simp [harvestLoop] at h
  | succ f ih =>
    intro st st' hinv htasks h
    rw [harvestLoop] at h
    by_cases hp : st.pending.isEmpty
    · rw [if_pos hp] at h
      cases h
      exact ⟨List.isEmpty_iff.mp hp, htasks, hinv⟩
    · rw [if_neg hp] at h
      exact ih _ _ (oneIter_inv chain mc st hinv) (oneIter_tasks_nil chain mc st) h

/-! ### Unfolding lemmas for `drain` -/

/-- A work unit beyond the chain behaves like an exhausted fetch. -/
theorem outcome_eq_none_of_le (chain : Chain) (i : Nat) (h : chain.length ≤ i) :
    outcome chain i = none := by
  unfold outcome
  rw [List.get?_eq_none.mpr h]

/-- A successful work unit lies within the chain. -/
theorem outcome_lt_of_eq_some {chain : Chain} {i : Nat} {b : BatchData}
    (h : outcome chain i = some b) : i < chain.length := by
  by_contra hc
  rw [outcome_eq_none_of_le chain i (Nat.le_of_not_lt hc)] at h
  cases h

theorem drain_none (chain : Chain) (i : Nat) (h : outcome chain i = none) :
    drain chain i = ⟨[], [i], []⟩ := by
  unfold drain
  split
  · rw [h]
  · rfl

theorem drain_stop (chain : Chain) (i : Nat) (b : BatchData)
    (h : outcome chain i = some b) (hn : b.hasNext = false) :
    drain chain i = ⟨b.records, [i], []⟩ := by
  conv_lhs => unfold drain
  rw [dif_pos (outcome_lt_of_eq_some h), h]
  simp [hn]

theorem drain_next (chain : Chain) (i : Nat) (b : BatchData)
    (h : outcome chain i = some b) (hn : b.hasNext = true) :
    drain chain i = ⟨b.records ++ (drain chain (i+1)).recs,
      i :: (drain chain (i+1)).disp, (i+1) :: (drain chain (i+1)).yld⟩ := by
  conv_lhs => unfold drain
  rw [dif_pos (outcome_lt_of_eq_some h), h]
  simp [hn]

/-! ### The loop on a singleton frontier -/

/-- With a positive ceiling, the dispatch loop started on one pending
token dispatches exactly that token. -/
theorem fill_singleton (mc i : Nat) (d : List Nat) (h : 0 < mc) :
    fill mc [i] [] d = ⟨[], [i], d ++ [i]⟩ := by
  simp [fill, h]

/-- One loop iteration from the state with exactly one pending token and
nothing in flight: dispatch it, wait for it, process its response. -/
theorem oneIter_singleton (chain : Chain) (mc i : Nat) (acc : List Rec) (d y : List Nat)
    (h : 0 < mc) :
    oneIter chain mc ⟨[i], [], acc, d, y⟩ =
      match outcome chain i with
      | none => ⟨[], [], acc, d ++ [i], y⟩
      | some b => ⟨if b.hasNext then [i+1] else [], [], acc ++ b.records, d ++ [i],
          if b.hasNext then y ++ [i+1] else y⟩ := by
  cases ho : outcome chain i with
  | none => simp [oneIter, fill_singleton mc i d h, processDone, ho]
  | some b =>
    cases hb : b.hasNext <;>
      simp [oneIter, fill_singleton mc i d h, processDone, ho, hb]

/-- Adequacy of `drain`: given a positive ceiling and enough fuel, the
loop from a single pending token computes exactly the drain of the chain
from that token. -/
theorem harvestLoop_drain (chain : Chain) (mc : Nat) (hmc : 0 < mc) :
    ∀ (fuel i : Nat) (acc : List Rec) (d y : List Nat),
      (drain chain i).disp.length + 1 ≤ fuel →
      harvestLoop chain mc fuel ⟨[i], [], acc, d, y⟩ =
        some ⟨[], [], acc ++ (drain chain i).recs,
          d ++ (drain chain i).disp, y ++ (drain chain i).yld⟩ := by
  intro fuel
  induction fuel with
  | zero => intro i acc d y hf; exact absurd hf (by omega)
  | succ f ih =>
    intro i acc d y hf
    rw [harvestLoop]
    rw [if_neg (by simp)]
    rw [oneIter_singleton chain mc i acc d y hmc]
    cases ho : outcome chain i with
    | none =>
      rw [drain_none chain i ho] at hf ⊢
      simp only [List.length_cons, List.length_nil] at hf
      cases f with
      | zero => omega
      | succ f' => simp [harvestLoop]
    | some b =>
      cases hb : b.hasNext
      case false =>
        rw [drain_stop chain i b ho hb] at hf ⊢
        simp only [hb, Bool.false_eq_true, if_false, List.length_cons, List.length_nil,
          List.append_nil] at hf ⊢
        cases f with
        | zero => omega
        | succ f' => simp [harvestLoop]
      case true =>
        rw [drain_next chain i b ho hb] at hf ⊢
        simp only [hb, eq_self_iff_true, if_true, List.length_cons] at hf ⊢
        rw [ih (i+1) (acc ++ b.records) (d ++ [i]) (y ++ [i+1]) (by omega)]
        simp [List.append_assoc, List.singleton_append]

/-! ### Shape lemmas for sequential chains -/

/-- Draining an all-successful run of tokens `i, i+1, ...` that ends at a
fetch failure at position `i + n`: the records of batches `i..i+n-1` are
collected, units `i..i+n` are dispatched, tokens `i+1..i+n` are yielded —
and nothing of the chain past the failed unit is touched. -/
theorem drain_fail_chain (chain : Chain) (f : Nat → List Rec) :
    ∀ (n i : Nat),
      (∀ j, i ≤ j → j < i + n → outcome chain j = some ⟨f j, true⟩) →
      outcome chain (i + n) = none →
      drain chain i =
        ⟨((List.range' i n).map f).flatten, List.range' i (n+1), List.range' (i+1) n⟩ := by
  intro n
  induction n with
  | zero =>
    intro i hall hfail
    rw [drain_none chain i (by simpa using hfail)]
    simp [List.range'_succ]
  | succ m ih =>
    intro i hall hfail
    have h0 : outcome chain i = some ⟨f i, true⟩ := hall i le_rfl (by omega)
    rw [drain_next chain i _ h0 rfl]
    rw [ih (i+1) (fun j hj1 hj2 => hall j (by omega) (by omega))
      (by rw [show i + 1 + m = i + (m + 1) by omega]; exact hfail)]
    simp [List.range'_succ]

/-- Draining an all-successful chain whose batch at position `i + n` is
the last one (no further token): every batch `i..i+n` is collected and
dispatched. -/
theorem drain_stop_chain (chain : Chain) (f : Nat → List Rec) :
    ∀ (n i : Nat),
      (∀ j, i ≤ j → j < i + n → outcome chain j = some ⟨f j, true⟩) →
      outcome chain (i + n) = some ⟨f (i + n), false⟩ →
      drain chain i =
        ⟨((List.range' i (n+1)).map f).flatten, List.range' i (n+1), List.range' (i+1) n⟩ := by
  intro n
  induction n with
  | zero =>
    intro i hall hstop
    rw [drain_stop chain i _ (by simpa using hstop) rfl]
    simp [List.range'_succ]
  | succ m ih =>
    intro i hall hstop
    have h0 : outcome chain i = some ⟨f i, true⟩ := hall i le_rfl (by omega)
    rw [drain_next chain i _ h0 rfl]
    rw [ih (i+1) (fun j hj1 hj2 => hall j (by omega) (by omega))
      (by rw [show i + 1 + m = i + (m + 1) by omega]; exact hstop)]
    simp [List.range'_succ]

/-- The whole harvest, when the initial batch succeeds and yields a token:
initial records plus the drain of the chain from token `1`. -/
theorem harvest_eq_drain (chain : Chain) (mc fuel : Nat) (rs : List Rec)
    (h0 : outcome chain 0 = some ⟨rs, true⟩) (hmc : 0 < mc)
    (hfuel : (drain chain 1).disp.length + 1 ≤ fuel) :
    harvest_records_async chain mc fuel =
      some ⟨[], [], rs ++ (drain chain 1).recs, 0 :: (drain chain 1).disp,
        1 :: (drain chain 1).yld⟩ := by
  have hinit : initState ⟨rs, true⟩ = ⟨[1], [], rs, [0], [1]⟩ := by simp [initState]
  unfold harvest_records_async
  simp only [h0]
  rw [hinit, harvestLoop_drain chain mc hmc fuel 1 rs [0] [1] hfuel]
  simp [finalGather]

/-! ### Lemmas about the retry loop (`fetch_records`) -/

/-- Unfolding the retry loop over an environment that always produces an
HTTP error (`raise_for_status` raising into the generic handler): every
attempt except the last sleeps and retries; after the last the unit fails. -/
theorem fetchLoop_httpError (s N : Nat) :
    ∀ (n i : Nat) (sleeps : List Nat) (attempts : Nat), i + n + 1 = N →
      fetchLoop (fun _ => FetchOutcome.httpError s) N i sleeps attempts =
        ⟨none, sleeps ++ (List.range' i n).map backoff, attempts + n + 1⟩ := by
  intro n
  induction n with
  | zero =>
    intro i sleeps attempts hN
    rw [fetchLoop]
    rw [dif_pos (by omega)]
    rw [if_neg (by omega)]
    simp
  | succ m ih =>
    intro i sleeps attempts hN
    rw [fetchLoop]
    rw [dif_pos (by omega)]
    rw [if_pos (by omega)]
    rw [ih (i+1) (sleeps ++ [backoff i]) (attempts + 1) (by omega)]
    simp [List.range'_succ, List.append_assoc]
    omega

/-- Unfolding the retry loop over an environment that fails transiently on
attempts `i..k-1` and succeeds at attempt `k`. -/
theorem fetchLoop_transient (tf : Nat → FetchOutcome) (p : String) (k N : Nat)
    (hk : k < N) (htrans : ∀ i, i < k → isTransient (tf i)) :
    ∀ (n i : Nat) (sleeps : List Nat) (attempts : Nat), i + n = k →
      fetchLoop (fun j => if j < k then tf j else FetchOutcome.success p) N i sleeps attempts =
        ⟨some p, sleeps ++ (List.range' i n).map backoff, attempts + n + 1⟩ := by
  intro n
  induction n with
  | zero =>
    intro i sleeps attempts hik
    rw [fetchLoop]
    rw [dif_pos (by omega)]
    rw [if_neg (by omega)]
    simp
  | succ m ih =>
    intro i sleeps attempts hik
    have hlt : i < k := by omega
    have hrec : fetchLoop (fun j => if j < k then tf j else FetchOutcome.success p) N (i+1)
        (sleeps ++ [backoff i]) (attempts + 1) =
        ⟨some p, (sleeps ++ [backoff i]) ++ (List.range' (i+1) m).map backoff,
          (attempts + 1) + m + 1⟩ := ih (i+1) (sleeps ++ [backoff i]) (attempts + 1) (by omega)
    rw [fetchLoop]
    rw [dif_pos (by omega)]
    rw [if_pos hlt]
    rcases htrans i hlt with ht | ht | ht <;> rw [ht]
    · rw [hrec]
      simp [List.range'_succ, List.append_assoc]
      omega
    · rw [hrec]
      simp [List.range'_succ, List.append_assoc]
      omega
    · rw [if_pos (by omega)]
      rw [hrec]
      simp [List.range'_succ, List.append_assoc]
      omega

/-- One iteration preserves the frontier bound
`|pending| + |in flight| ≤ 1`. -/
theorem oneIter_sum_le (chain : Chain) (mc : Nat) (st : HState)
    (h : st.pending.length + st.tasks.length ≤ 1) :
    (oneIter chain mc st).pending.length + (oneIter chain mc st).tasks.length ≤ 1 := by
  have hsum := fill_sum mc st.pending st.tasks st.dispatched
  unfold oneIter
  by_cases he : (fill mc st.pending st.tasks st.dispatched).tasks.isEmpty
  · simp only [if_pos he]
    omega
  · simp only [if_neg he]
    have hproc := processDone_pending_length chain
      (fill mc st.pending st.tasks st.dispatched).tasks st.allRecords
      (fill mc st.pending st.tasks st.dispatched).pending st.yielded
    simp only [List.length_nil]
    omega

end FetchPublications

namespace FetchFaculties

/-! ### Counting lemmas for the finite-mode driver -/

/-- Total record count over pages `s..s+n-1` when every such page yields
`M` records. -/
theorem pages_flatten_length (env : Nat → PageResp) (M : Nat) :
    ∀ (n s : Nat), (∀ p, s ≤ p → p < s + n → (fetch_and_parse_page (env p)).length = M) →
      (((List.range' s n).map (fun p => fetch_and_parse_page (env p))).flatten).length = n * M := by
  intro n
  induction n with
  | zero => intro s _; simp
  | succ m ih =>
    intro s h
    rw [List.range'_succ]
    simp only [List.map_cons, List.flatten_cons, List.length_append]
    rw [h s le_rfl (by omega), ih (s + 1) (fun p hp1 hp2 => h p (by omega) (by omega))]
    ring

/-- When every page of `1..total` succeeds, the success/failure tallies
are `total` and `0`. -/
theorem page_tallies_all_ok (env : Nat → PageResp) (total : Nat)
    (h : ∀ p, 1 ≤ p → p ≤ total → pageSucceeded (env p) = true) :
    succeededPages env total = total ∧ failedPages env total = 0 := by
  have hmem : ∀ p ∈ List.range' 1 total, pageSucceeded (env p) = true := by
    intro p hp
    rw [List.mem_range'_1] at hp
    exact h p hp.1 (by omega)
  constructor
  · unfold succeededPages
    rw [List.filter_eq_self.mpr hmem]
    simp
  · unfold failedPages
    rw [List.filter_eq_nil_iff.mpr (by intro p hp; simp [hmem p hp])]
    simp

end FetchFaculties

/-! ## The claims -/

/-- C1 (confirmed): In chained (token-based) mode the harvest terminates
only when the pending token queue is empty and no fetch task is in flight
(the remaining in-flight tasks of lines 152-158 are awaited before the
function returns), and every new resumption token yielded by a finished
task was appended to the pending queue and dispatched before the run
ended — for every sequence of batch responses, every ceiling and any
iteration budget. -/
theorem c1_chained_termination_and_token_dispatch
    (chain : FetchPublications.Chain) (mc fuel : Nat) (st' : FetchPublications.HState)
    (h : FetchPublications.harvest_records_async chain mc fuel = some st') :
    st'.pending = [] ∧ st'.tasks = [] ∧ ∀ t ∈ st'.yielded, t ∈ st'.dispatched := by
  unfold FetchPublications.harvest_records_async at h
  cases h0 : FetchPublications.outcome chain 0 with
  | none =>
    simp only [h0] at h
    cases h
    refine ⟨rfl, rfl, ?_⟩
    intro t ht
    simp at ht
  | some b0 =>
    simp only [h0] at h
    cases hl : FetchPublications.harvestLoop chain mc fuel (FetchPublications.initState b0) with
    | none =>
      simp only [hl] at h
      exact Option.noConfusion h
    | some st1 =>
      simp only [hl] at h
      cases h
      have hini : FetchPublications.TokensInv (FetchPublications.initState b0) := by
        intro x hx
        cases hb : b0.hasNext
        case false => simp [FetchPublications.initState, hb] at hx
        case true =>
          simp [FetchPublications.initState, hb] at hx ⊢
          omega
      have hspec := FetchPublications.harvestLoop_spec chain mc fuel _ st1 hini rfl hl
      refine ⟨?_, ?_, ?_⟩
      · simpa [FetchPublications.finalGather] using hspec.1
      · simp [FetchPublications.finalGather]
      · intro t ht
        have ht1 : t ∈ st1.yielded := by
          simpa [FetchPublications.finalGather] using ht
        rcases hspec.2.2 t ht1 with hD | hp
        · simpa [FetchPublications.finalGather] using hD
        · rw [hspec.1] at hp
          simp at hp

/-- Witness for C1: a concrete two-batch chain, ceiling 5, fuel 10. -/
theorem c1_witness :
    (⟨[], [], [5, 6, 7], [0, 1], [1]⟩ : FetchPublications.HState).pending = [] ∧
    (⟨[], [], [5, 6, 7], [0, 1], [1]⟩ : FetchPublications.HState).tasks = [] ∧
    ∀ t ∈ (⟨[], [], [5, 6, 7], [0, 1], [1]⟩ : FetchPublications.HState).yielded,
      t ∈ (⟨[], [], [5, 6, 7], [0, 1], [1]⟩ : FetchPublications.HState).dispatched :=
  c1_chained_termination_and_token_dispatch
    [some ⟨[5, 6], true⟩, some ⟨[7], false⟩] 5 10 ⟨[], [], [5, 6, 7], [0, 1], [1]⟩ rfl

/-- C2 counterexample: with `retry_count = 3`, a unit whose every request
is answered with HTTP 404 is retried — three requests and two backoff
sleeps — instead of failing fast on the first client-error response. -/
theorem c2_counterexample_4xx_is_retried :
    FetchPublications.fetch_records (fun _ => FetchPublications.FetchOutcome.httpError 404) 3 =
      ⟨none, [1, 2], 3⟩ ∧
    (FetchPublications.fetch_records
      (fun _ => FetchPublications.FetchOutcome.httpError 404) 3).attempts ≠ 1 ∧
    (FetchPublications.fetch_records
      (fun _ => FetchPublications.FetchOutcome.httpError 404) 3).sleeps ≠ [] := by
  have h := FetchPublications.fetchLoop_httpError 404 3 2 0 [] 0 (by omega)
  have h2 : FetchPublications.fetch_records
      (fun _ => FetchPublications.FetchOutcome.httpError 404) 3 = ⟨none, [1, 2], 3⟩ := by
    unfold FetchPublications.fetch_records
    rw [h]
    decide
  refine ⟨h2, ?_, ?_⟩
  · rw [h2]
    decide
  · rw [h2]
    decide

/-- C2 amended (corrected): `raise_for_status` on a 4xx lands in the
generic `except Exception` handler, so a client-error response is retried
with backoff like any other generic error on every attempt but the last;
the unit fails (no payload) only after all `retry_count` attempts. -/
theorem c2_amended_4xx_retried_like_generic_errors (s N : Nat) (hN : 1 ≤ N) :
    FetchPublications.fetch_records (fun _ => FetchPublications.FetchOutcome.httpError s) N =
      ⟨none, (List.range (N - 1)).map FetchPublications.backoff, N⟩ := by
  obtain ⟨m, rfl⟩ : ∃ m, N = m + 1 := ⟨N - 1, by omega⟩
  have := FetchPublications.fetchLoop_httpError s (m + 1) m 0 [] 0 (by omega)
  simpa [FetchPublications.fetch_records, List.range_eq_range'] using this

/-- Witness for the amended C2 at status 404 and `retry_count = 3`. -/
theorem c2_amended_witness :
    FetchPublications.fetch_records (fun _ => FetchPublications.FetchOutcome.httpError 404) 3 =
      ⟨none, (List.range 2).map FetchPublications.backoff, 3⟩ :=
  c2_amended_4xx_retried_like_generic_errors 404 3 (by omega)

/-- C3 (confirmed): the extractors are total — every payload either parses
or yields the empty result; on a parse failure `extract_records` returns
an empty record sequence and no continuation token, and the finite-mode
extractor returns `[]` when the page has no result containers (which is
all a malformed page yields under BeautifulSoup's lenient parser). -/
theorem c3_extractors_total_on_failure :
    (∀ e : String, FetchPublications.extract_records (Except.error e) = ([], none)) ∧
    (∀ payload : FetchPublications.XmlPayload,
      (∃ doc, payload = Except.ok doc) ∨
        FetchPublications.extract_records payload = ([], none)) ∧
    FetchFaculties.extract_publication_data [] = [] := by
  refine ⟨fun _ => rfl, ?_, rfl⟩
  intro payload
  cases payload with
  | error e => exact Or.inr rfl
  | ok doc => exact Or.inl ⟨doc, rfl⟩

/-- C4 (confirmed): when the fetch of mid-chain batch `k` exhausts its
retries, its records and its successor token are silently dropped: the
run accumulates exactly the records of batches `0..k-1`, dispatches only
units `0..k`, never touches the rest of the chain, and still terminates
normally — the returned state carries no failure indication (it is
identical in shape to that of a clean run over the truncated chain). -/
theorem c4_failed_mid_chain_batch_silently_dropped
    (chain : FetchPublications.Chain) (k : Nat) (f : Nat → List FetchPublications.Rec)
    (mc fuel : Nat) (hk : 1 ≤ k) (hmc : 1 ≤ mc) (hfuel : k + 2 ≤ fuel)
    (hok : ∀ j, j < k → FetchPublications.outcome chain j = some ⟨f j, true⟩)
    (hfail : FetchPublications.outcome chain k = none) :
    FetchPublications.harvest_records_async chain mc fuel =
      some ⟨[], [], ((List.range k).map f).flatten, List.range (k + 1), List.range' 1 k⟩ := by
  obtain ⟨m, rfl⟩ : ∃ m, k = m + 1 := ⟨k - 1, by omega⟩
  have h0 : FetchPublications.outcome chain 0 = some ⟨f 0, true⟩ := hok 0 (by omega)
  have hd := FetchPublications.drain_fail_chain chain f m 1
    (fun j hj1 hj2 => hok j (by omega))
    (by rw [show 1 + m = m + 1 by omega]; exact hfail)
  rw [FetchPublications.harvest_eq_drain chain mc fuel (f 0) h0 hmc
    (by rw [hd]; simp [List.length_range']; omega)]
  rw [hd]
  simp [List.range_eq_range', List.range'_succ]

/-- Witness for C4: batches 0 and 1 succeed, the fetch of token 2 fails;
the records of batch 2 and the whole tail are dropped. -/
theorem c4_witness :
    FetchPublications.harvest_records_async
      [some ⟨[1, 2], true⟩, some ⟨[3], true⟩, none, some ⟨[9], true⟩] 5 10 =
      some ⟨[], [], ((List.range 2).map (fun j => if j = 0 then [1, 2] else [3])).flatten,
        List.range 3, List.range' 1 2⟩ :=
  c4_failed_mid_chain_batch_silently_dropped
    [some ⟨[1, 2], true⟩, some ⟨[3], true⟩, none, some ⟨[9], true⟩] 2
    (fun j => if j = 0 then [1, 2] else [3]) 5 10 (by omega) (by omega) (by omega)
    (by intro j hj; interval_cases j <;> rfl) rfl

/-- C5 (confirmed): the number of in-flight tasks never exceeds the
ceiling — the dispatch loop stops at `max_concurrent` and every loop
boundary has an empty task list — and a sequential chain of `n+1` batches
(each revealing the next token) is fully drained: all records are
accumulated and every unit `0..n` is dispatched. -/
theorem c5_inflight_bounded_and_chain_drained :
    (∀ (mc : Nat) (p d : List Nat),
      ((FetchPublications.fill mc p [] d).tasks).length ≤ mc) ∧
    (∀ (chain : FetchPublications.Chain) (mc : Nat) (st : FetchPublications.HState),
      (FetchPublications.oneIter chain mc st).tasks = []) ∧
    (∀ (chain : FetchPublications.Chain) (f : Nat → List FetchPublications.Rec)
      (n mc fuel : Nat), 1 ≤ mc → n + 2 ≤ fuel →
      (∀ j, j < n → FetchPublications.outcome chain j = some ⟨f j, true⟩) →
      FetchPublications.outcome chain n = some ⟨f n, false⟩ →
      FetchPublications.harvest_records_async chain mc fuel =
        some ⟨[], [], ((List.range (n + 1)).map f).flatten,
          List.range (n + 1), List.range' 1 n⟩) := by
  refine ⟨?_, FetchPublications.oneIter_tasks_nil, ?_⟩
  · intro mc p d
    have := FetchPublications.fill_tasks_length_le mc p [] d
    simpa using this
  · intro chain f n mc fuel hmc hfuel hall hstop
    cases n with
    | zero =>
      unfold FetchPublications.harvest_records_async
      simp only [hstop]
      obtain ⟨f', rfl⟩ : ∃ f', fuel = f' + 1 := ⟨fuel - 1, by omega⟩
      rw [FetchPublications.harvestLoop]
      rw [if_pos (by simp [FetchPublications.initState])]
      simp [FetchPublications.initState, FetchPublications.finalGather,
        List.range_succ, List.range_zero]
    | succ m =>
      have h0 : FetchPublications.outcome chain 0 = some ⟨f 0, true⟩ := hall 0 (by omega)
      have hd := FetchPublications.drain_stop_chain chain f m 1
        (fun j hj1 hj2 => hall j (by omega))
        (by rw [show 1 + m = m + 1 by omega]; exact hstop)
      rw [FetchPublications.harvest_eq_drain chain mc fuel (f 0) h0 hmc
        (by rw [hd]; simp [List.length_range']; omega)]
      rw [hd]
      simp [List.range_eq_range', List.range'_succ]

/-- Witness for C5: the spec's scenario — ceiling 3, a strictly sequential
chain of 10 batches — is fully drained; and a four-token queue fills only
3 tasks. -/
theorem c5_witness :
    FetchPublications.harvest_records_async
      [some ⟨[0], true⟩, some ⟨[1], true⟩, some ⟨[2], true⟩, some ⟨[3], true⟩,
       some ⟨[4], true⟩, some ⟨[5], true⟩, some ⟨[6], true⟩, some ⟨[7], true⟩,
       some ⟨[8], true⟩, some ⟨[9], false⟩] 3 20 =
      some ⟨[], [], ((List.range 10).map (fun j => [j])).flatten,
        List.range 10, List.range' 1 9⟩ ∧
    ((FetchPublications.fill 3 [1, 2, 3, 4] [] []).tasks).length ≤ 3 := by
  constructor
  · exact c5_inflight_bounded_and_chain_drained.2.2
      [some ⟨[0], true⟩, some ⟨[1], true⟩, some ⟨[2], true⟩, some ⟨[3], true⟩,
       some ⟨[4], true⟩, some ⟨[5], true⟩, some ⟨[6], true⟩, some ⟨[7], true⟩,
       some ⟨[8], true⟩, some ⟨[9], false⟩]
      (fun j => [j]) 9 3 20 (by omega) (by omega)
      (by intro j hj; interval_cases j <;> rfl) rfl
  · exact c5_inflight_bounded_and_chain_drained.1 3 [1, 2, 3, 4] []

/-- C7 (confirmed): a unit that fails transiently on attempts `0..k-1` and
succeeds on attempt `k < N` yields the payload, with the observed sleep
sequence exactly `min(2^i, 30)` for `i = 0..k-1` (the code's backoff cap
is 30 seconds) and `k+1` requests issued. -/
theorem c7_transient_then_success_backoff_sequence
    (k N : Nat) (p : String) (tf : Nat → FetchPublications.FetchOutcome)
    (hk : k < N) (htrans : ∀ i, i < k → FetchPublications.isTransient (tf i)) :
    FetchPublications.fetch_records
        (fun i => if i < k then tf i else FetchPublications.FetchOutcome.success p) N =
      ⟨some p, (List.range k).map FetchPublications.backoff, k + 1⟩ := by
  have := FetchPublications.fetchLoop_transient tf p k N hk htrans k 0 [] 0 (by omega)
  simpa [FetchPublications.fetch_records, List.range_eq_range'] using this

/-- Witness for C7: a timeout then a 503, then success, with
`retry_count = 3`: sleeps `[1, 2]`. -/
theorem c7_witness :
    FetchPublications.fetch_records
      (fun i => if i < 2
        then (if i = 0 then FetchPublications.FetchOutcome.timeout
          else FetchPublications.FetchOutcome.busy)
        else FetchPublications.FetchOutcome.success "ok") 3 =
      ⟨some "ok", (List.range 2).map FetchPublications.backoff, 3⟩ :=
  c7_transient_then_success_backoff_sequence 2 3 "ok"
    (fun i => if i = 0 then FetchPublications.FetchOutcome.timeout
      else FetchPublications.FetchOutcome.busy)
    (by omega)
    (by intro i hi
        interval_cases i <;> simp [FetchPublications.isTransient])

/-- C10 (confirmed): in chained mode — where every response yields at most
one new token — the frontier invariant `|pending| + |in flight| ≤ 1`
holds: it holds for the initial state, the dispatch phase preserves the
sum exactly, at most one task is ever filled from a frontier of size one,
and a full loop iteration preserves the bound, for any ceiling. -/
theorem c10_sequential_frontier_invariant :
    (∀ b0 : FetchPublications.BatchData,
      (FetchPublications.initState b0).pending.length +
        (FetchPublications.initState b0).tasks.length ≤ 1) ∧
    (∀ (mc : Nat) (p t d : List Nat),
      (FetchPublications.fill mc p t d).pending.length +
        (FetchPublications.fill mc p t d).tasks.length = p.length + t.length) ∧
    (∀ (mc : Nat) (p t d : List Nat), p.length + t.length ≤ 1 →
      ((FetchPublications.fill mc p t d).tasks).length ≤ 1) ∧
    (∀ (chain : FetchPublications.Chain) (mc : Nat) (st : FetchPublications.HState),
      st.pending.length + st.tasks.length ≤ 1 →
      (FetchPublications.oneIter chain mc st).pending.length +
        (FetchPublications.oneIter chain mc st).tasks.length ≤ 1) := by
  refine ⟨?_, FetchPublications.fill_sum, ?_, FetchPublications.oneIter_sum_le⟩
  · intro b0
    cases hb : b0.hasNext <;> simp [FetchPublications.initState, hb]
  · intro mc p t d h
    have := FetchPublications.fill_sum mc p t d
    omega

/-- Witness for C10 at a singleton frontier and a concrete state. -/
theorem c10_witness :
    ((FetchPublications.fill 5 [7] [] []).tasks).length ≤ 1 ∧
    (FetchPublications.oneIter [] 5 ⟨[3], [], [], [], []⟩).pending.length +
      (FetchPublications.oneIter [] 5 ⟨[3], [], [], [], []⟩).tasks.length ≤ 1 :=
  ⟨c10_sequential_frontier_invariant.2.2.1 5 [7] [] [] (by decide),
   c10_sequential_frontier_invariant.2.2.2 [] 5 ⟨[3], [], [], [], []⟩ (by decide)⟩

/-- C6 (confirmed): if the page-1 probe fails, `get_total_pages` returns 0
and the run aborts with the "could not determine total pages" exit before
dispatching any work unit; an abort can only come from a zero page count
(probe failure), and whenever scope discovery succeeds the run never
aborts, whatever the per-page outcomes — so no individual page failure is
fatal. -/
theorem c6_scope_discovery_failure_aborts_run (env : Nat → FetchFaculties.PageResp) :
    FetchFaculties.facMain FetchFaculties.ProbeResult.fetchFail env = ⟨true, [], [], 0⟩ ∧
    (∀ probe : FetchFaculties.ProbeResult,
      (FetchFaculties.facMain probe env).aborted = true →
        FetchFaculties.get_total_pages probe = 0) ∧
    (∀ probe : FetchFaculties.ProbeResult,
      1 ≤ FetchFaculties.get_total_pages probe →
        (FetchFaculties.facMain probe env).aborted = false) := by
  refine ⟨rfl, ?_, ?_⟩
  · intro probe h
    by_cases h0 : FetchFaculties.get_total_pages probe ≤ 0
    · omega
    · simp only [FetchFaculties.facMain] at h
      rw [if_neg h0] at h
      simp at h
  · intro probe h1
    simp only [FetchFaculties.facMain]
    rw [if_neg (by omega)]

/-- Witness for C6: probe failure yields scope 0; a successful probe with
no pager never aborts even when every page fetch fails. -/
theorem c6_witness :
    FetchFaculties.get_total_pages FetchFaculties.ProbeResult.fetchFail = 0 ∧
    (FetchFaculties.facMain (FetchFaculties.ProbeResult.okPage none)
      (fun _ => FetchFaculties.PageResp.reqError)).aborted = false := by
  have h := c6_scope_discovery_failure_aborts_run (fun _ => FetchFaculties.PageResp.reqError)
  exact ⟨h.2.1 FetchFaculties.ProbeResult.fetchFail rfl,
    h.2.2 (FetchFaculties.ProbeResult.okPage none) (by decide)⟩

/-- C8 (confirmed): in finite mode with `total_pages = P ≥ 1` and every
page fetch succeeding with `M` records, the final accumulator holds
exactly `P * M` records, the completed-pages counter reports `P`, and the
per-unit outcome classification tallies `P` succeeded and `0` failed
pages. -/
theorem c8_finite_mode_accumulator_and_tallies
    (probe : FetchFaculties.ProbeResult) (env : Nat → FetchFaculties.PageResp) (M : Nat)
    (htot : 1 ≤ FetchFaculties.get_total_pages probe)
    (hall : ∀ p, 1 ≤ p → p ≤ FetchFaculties.get_total_pages probe →
      ∃ rows, env p = FetchFaculties.PageResp.ok rows ∧
        (FetchFaculties.extract_publication_data rows).length = M) :
    (FetchFaculties.facMain probe env).records.length =
      FetchFaculties.get_total_pages probe * M ∧
    (FetchFaculties.facMain probe env).completedPages =
      FetchFaculties.get_total_pages probe ∧
    FetchFaculties.succeededPages env (FetchFaculties.get_total_pages probe) =
      FetchFaculties.get_total_pages probe ∧
    FetchFaculties.failedPages env (FetchFaculties.get_total_pages probe) = 0 := by
  have hlen : ∀ p, 1 ≤ p → p ≤ FetchFaculties.get_total_pages probe →
      (FetchFaculties.fetch_and_parse_page (env p)).length = M := by
    intro p h1 h2
    obtain ⟨rows, hr, hM⟩ := hall p h1 h2
    rw [hr]
    exact hM
  have hsucc : ∀ p, 1 ≤ p → p ≤ FetchFaculties.get_total_pages probe →
      FetchFaculties.pageSucceeded (env p) = true := by
    intro p h1 h2
    obtain ⟨rows, hr, _⟩ := hall p h1 h2
    rw [hr]
    rfl
  have htal := FetchFaculties.page_tallies_all_ok env
    (FetchFaculties.get_total_pages probe) hsucc
  refine ⟨?_, ?_, htal.1, htal.2⟩
  · simp only [FetchFaculties.facMain]
    rw [if_neg (by omega)]
    have := FetchFaculties.pages_flatten_length env M
      (FetchFaculties.get_total_pages probe) 1
      (fun p hp1 hp2 => hlen p hp1 (by omega))
    simpa using this
  · simp only [FetchFaculties.facMain]
    rw [if_neg (by omega)]
    simp [List.length_range']

/-- Witness for C8: scope 2 (pager linking page 2), every page returning 3
result rows: 6 records, 2 completed, 2 succeeded, 0 failed. -/
theorem c8_witness :
    (FetchFaculties.facMain (FetchFaculties.ProbeResult.okPage (some [2]))
        (fun _ => FetchFaculties.PageResp.ok
          [⟨none, none, none, none, none, none, none⟩,
           ⟨none, none, none, none, none, none, none⟩,
           ⟨none, none, none, none, none, none, none⟩])).records.length =
      FetchFaculties.get_total_pages (FetchFaculties.ProbeResult.okPage (some [2])) * 3 ∧
    (FetchFaculties.facMain (FetchFaculties.ProbeResult.okPage (some [2]))
        (fun _ => FetchFaculties.PageResp.ok
          [⟨none, none, none, none, none, none, none⟩,
           ⟨none, none, none, none, none, none, none⟩,
           ⟨none, none, none, none, none, none, none⟩])).completedPages =
      FetchFaculties.get_total_pages (FetchFaculties.ProbeResult.okPage (some [2])) ∧
    FetchFaculties.succeededPages
        (fun _ => FetchFaculties.PageResp.ok
          [⟨none, none, none, none, none, none, none⟩,
           ⟨none, none, none, none, none, none, none⟩,
           ⟨none, none, none, none, none, none, none⟩])
        (FetchFaculties.get_total_pages (FetchFaculties.ProbeResult.okPage (some [2]))) =
      FetchFaculties.get_total_pages (FetchFaculties.ProbeResult.okPage (some [2])) ∧
    FetchFaculties.failedPages
        (fun _ => FetchFaculties.PageResp.ok
          [⟨none, none, none, none, none, none, none⟩,
           ⟨none, none, none, none, none, none, none⟩,
           ⟨none, none, none, none, none, none, none⟩])
        (FetchFaculties.get_total_pages (FetchFaculties.ProbeResult.okPage (some [2]))) = 0 :=
  c8_finite_mode_accumulator_and_tallies (FetchFaculties.ProbeResult.okPage (some [2]))
    (fun _ => FetchFaculties.PageResp.ok
      [⟨none, none, none, none, none, none, none⟩,
       ⟨none, none, none, none, none, none, none⟩,
       ⟨none, none, none, none, none, none, none⟩]) 3
    (by decide)
    (fun p _ _ => ⟨_, rfl, rfl⟩)

/-- C9 counterexample: at `pages_remaining = 0` the divisor the code uses
is `min(MAX_WORKERS, 1) = 1`, not `min(MAX_WORKERS, 0) = 0` as the
claimed formula `effective_parallelism = min(ceiling, remaining_units)`
requires — with the claimed formula the computation would divide by zero
exactly in the `remaining_units = 0` case the claim covers. -/
theorem c9_counterexample_divisor_at_zero_remaining :
    FetchFaculties.etaDivisor FetchFaculties.MAX_WORKERS 0 = 1 ∧
    min FetchFaculties.MAX_WORKERS 0 = 0 ∧
    FetchFaculties.etaDivisor FetchFaculties.MAX_WORKERS 0 ≠
      min FetchFaculties.MAX_WORKERS 0 := by
  refine ⟨by decide, by decide, by decide⟩

/-- C9 amended (corrected): the displayed ETA equals
`avg_latency × remaining / effective_parallelism` where
`effective_parallelism = min(ceiling, remaining)` whenever
`remaining > 0`, and `min(ceiling, 1) = 1` when `remaining = 0` (so the
ETA is then 0); for any ceiling ≥ 1 the divisor is never zero. -/
theorem c9_amended_eta_divisor_guard (c r : Nat) (avg : ℚ) (hc : 1 ≤ c) :
    FetchFaculties.etaDivisor c r ≠ 0 ∧
    (0 < r → FetchFaculties.etaDivisor c r = min c r) ∧
    (r = 0 → FetchFaculties.etaDivisor c r = 1 ∧ FetchFaculties.etaSeconds avg c 0 = 0) ∧
    FetchFaculties.etaSeconds avg c r =
      avg * (r : ℚ) / (FetchFaculties.etaDivisor c r : ℚ) := by
  refine ⟨?_, ?_, ?_, rfl⟩
  · unfold FetchFaculties.etaDivisor
    by_cases hr : r > 0
    · rw [if_pos hr]; omega
    · rw [if_neg hr]; omega
  · intro hr
    unfold FetchFaculties.etaDivisor
    rw [if_pos hr]
  · intro hr
    subst hr
    constructor
    · unfold FetchFaculties.etaDivisor
      simp
      omega
    · unfold FetchFaculties.etaSeconds
      simp

/-- Witness for the amended C9 at the code's ceiling 32 and zero pages
remaining. -/
theorem c9_amended_witness :
    FetchFaculties.etaDivisor 32 0 ≠ 0 ∧
    (0 < 0 → FetchFaculties.etaDivisor 32 0 = min 32 0) ∧
    ((0 : Nat) = 0 → FetchFaculties.etaDivisor 32 0 = 1 ∧
      FetchFaculties.etaSeconds 1 32 0 = 0) ∧
    FetchFaculties.etaSeconds 1 32 0 =
      1 * ((0 : Nat) : ℚ) / (FetchFaculties.etaDivisor 32 0 : ℚ) :=
  c9_amended_eta_divisor_guard 32 0 1 (by omega)
